import Mathlib

/-!
Verification development for the Relay expression simplifier
(src/relay/transforms/simplify_expr.cc) and the dataflow pattern
combinators exercised by tests/cpp/dataflow_pattern_test.cc.

The embedding is shallow: Relay expressions become a small inductive
type of DAG-free trees carrying the pieces of state the simplifier
reads (operator name, arguments, attribute bag, checked type), and the
three rewrite rules (SimplifyReshape, FullElementwise, SimplifyConvPad)
are translated function by function from the C++ source.  A source
ICHECK failure (a hard abort of the pass) is modelled as the value
none of an Option result, never as an ordinary return.  Machine
doubles appear only as the pad value compared exactly against zero, so
it is modelled as an integer.
-/

/-- One dimension of a tensor type shape: either a compile-time integer
constant (IntImmNode) or a non-constant dimension (for example tir.Any
or a symbolic variable). -/
inductive PrimDim where
  | imm : Int → PrimDim
  | dyn : String → PrimDim
deriving DecidableEq, Repr

/-- A TensorTypeNode: a shape of dimensions plus an element dtype. -/
structure TensorTy where
  shape : List PrimDim
  dtype : String
deriving DecidableEq, Repr

/-- PadAttrs of an nn.pad call: pad_width is one pair-list per data
dimension; pad_mode and pad_value drive the fusion guard in
SimplifyConvPad::callback. -/
structure PadAttrs where
  pad_width : List (List Int)
  pad_mode : String
  pad_value : Int
deriving DecidableEq, Repr

/-- The attribute fields shared by Conv1DAttrs, Conv2DAttrs and
Conv3DAttrs that SimplifyConvPad::MakeConvAttrs reads and copies. -/
structure ConvAttrs where
  strides : List Int
  padding : List Int
  dilation : List Int
  groups : Int
  channels : Option Int
  kernel_size : Option (List Int)
  data_layout : String
  kernel_layout : String
  out_layout : String
  out_dtype : String
deriving DecidableEq, Repr

/-- Which concrete convolution attribute type a call carries
(Conv1DAttrs, Conv2DAttrs or Conv3DAttrs). -/
inductive ConvKind where
  | conv1d | conv2d | conv3d
deriving DecidableEq, Repr

/-- The attribute bag of a call node, restricted to the attribute types
the simplifier inspects; every other attribute object is opaque and is
represented by noAttrs. -/
inductive RelayAttrs where
  | noAttrs : RelayAttrs
  | convA : ConvKind → ConvAttrs → RelayAttrs
  | padA : PadAttrs → RelayAttrs
  | reshapeA : List Int → RelayAttrs
deriving DecidableEq, Repr

/-- A Relay expression as the simplifier sees it: a variable, a
constant tensor (shape, dtype, fill value) or a call.  The final
component of each constructor is the checked_type_ annotation written
by type inference (none when unset, as on freshly built nodes). -/
inductive RExpr where
  | var : String → Option TensorTy → RExpr
  | constE : List Int → String → Int → Option TensorTy → RExpr
  | call : String → List RExpr → RelayAttrs → Option TensorTy → RExpr

mutual
/-- Structural equality test on expressions; it stands in for the
pointer equality the C++ callback uses on sub-terms bound out of the
matched (post) graph, where bindings are sub-objects of the graph. -/
def RExpr.beq : RExpr → RExpr → Bool
  | .var n t, .var n2 t2 => n == n2 && t == t2
  | .constE s d v t, .constE s2 d2 v2 t2 => s == s2 && d == d2 && v == v2 && t == t2
  | .call op args attrs t, .call op2 args2 attrs2 t2 =>
      op == op2 && RExpr.beqList args args2 && attrs == attrs2 && t == t2
  | _, _ => false
def RExpr.beqList : List RExpr → List RExpr → Bool
  | [], [] => true
  | a :: as, b :: bs => RExpr.beq a b && RExpr.beqList as bs
  | _, _ => false
end

mutual
theorem RExpr.beq_refl : ∀ e : RExpr, RExpr.beq e e = true
  | .var n t => by simp [RExpr.beq]
  | .constE s d v t => by simp [RExpr.beq]
  | .call op args attrs t => by simp [RExpr.beq, RExpr.beqList_refl args]
theorem RExpr.beqList_refl : ∀ l : List RExpr, RExpr.beqList l l = true
  | [] => rfl
  | a :: as => by simp [RExpr.beqList, RExpr.beq_refl a, RExpr.beqList_refl as]
end

mutual
theorem RExpr.eq_of_beq : ∀ (a b : RExpr), RExpr.beq a b = true → a = b
  | .var n t, .var n2 t2, h => by
      simp only [RExpr.beq, Bool.and_eq_true, beq_iff_eq] at h
      simp [h.1, h.2]
  | .var _ _, .constE _ _ _ _, h => by simp [RExpr.beq] at h
  | .var _ _, .call _ _ _ _, h => by simp [RExpr.beq] at h
  | .constE _ _ _ _, .var _ _, h => by simp [RExpr.beq] at h
  | .constE s d v t, .constE s2 d2 v2 t2, h => by
      simp only [RExpr.beq, Bool.and_eq_true, beq_iff_eq] at h
      simp [h.1.1.1, h.1.1.2, h.1.2, h.2]
  | .constE _ _ _ _, .call _ _ _ _, h => by simp [RExpr.beq] at h
  | .call _ _ _ _, .var _ _, h => by simp [RExpr.beq] at h
  | .call _ _ _ _, .constE _ _ _ _, h => by simp [RExpr.beq] at h
  | .call op args attrs t, .call op2 args2 attrs2 t2, h => by
      simp only [RExpr.beq, Bool.and_eq_true, beq_iff_eq] at h
      have hargs := RExpr.eqList_of_beq args args2 h.1.1.2
      simp [h.1.1.1, hargs, h.1.2, h.2]
theorem RExpr.eqList_of_beq : ∀ (a b : List RExpr), RExpr.beqList a b = true → a = b
  | [], [], _ => rfl
  | [], _ :: _, h => by simp [RExpr.beqList] at h
  | _ :: _, [], h => by simp [RExpr.beqList] at h
  | a :: as, b :: bs, h => by
      simp only [RExpr.beqList, Bool.and_eq_true] at h
      have h1 := RExpr.eq_of_beq a b h.1
      have h2 := RExpr.eqList_of_beq as bs h.2
      simp [h1, h2]
end

theorem RExpr.beq_iff_eq (a b : RExpr) : RExpr.beq a b = true ↔ a = b := by
  constructor
  · exact RExpr.eq_of_beq a b
  · intro h; subst h; exact RExpr.beq_refl a

instance : DecidableEq RExpr := fun a b =>
  decidable_of_iff (RExpr.beq a b = true) (RExpr.beq_iff_eq a b)

/-- The checked_type_ annotation of a node. -/
def checkedTy : RExpr → Option TensorTy
  | .var _ t => t
  | .constE _ _ _ t => t
  | .call _ _ _ t => t

mutual
/-- Whether an expression contains a call to the named operator. -/
def containsOp (name : String) : RExpr → Bool
  | .var _ _ => false
  | .constE _ _ _ _ => false
  | .call op args _ _ => op == name || containsOpList name args
def containsOpList (name : String) : List RExpr → Bool
  | [] => false
  | e :: es => containsOp name e || containsOpList name es
end

/-- The image_dims set of SimplifyConvPad::GetAttrs: the spatial
data-layout characters. -/
def image_dims : List Char := ['H', 'W', 'D']

/-- Membership in image_dims. -/
def isSpatialDim (c : Char) : Bool := image_dims.contains c

/-- SimplifyConvPad::MakeConvAttrs.  Builds the fused attributes:
element-wise sum of the extracted pad amounts with the old convolution
padding, every other field copied verbatim.  Returns none for the
ICHECK abort when the two padding lists differ in length. -/
def MakeConvAttrs (old_attrs : ConvAttrs) (padding : List Int) : Option ConvAttrs :=
  if padding.length = old_attrs.padding.length then
    some { strides := old_attrs.strides
         , padding := List.zipWith (fun p q => p + q) padding old_attrs.padding
         , dilation := old_attrs.dilation
         , groups := old_attrs.groups
         , channels := old_attrs.channels
         , kernel_size := old_attrs.kernel_size
         , data_layout := old_attrs.data_layout
         , kernel_layout := old_attrs.kernel_layout
         , out_layout := old_attrs.out_layout
         , out_dtype := old_attrs.out_dtype }
  else none

/-- The first loop of SimplifyConvPad::GetAttrs: is there a non-zero
pad amount on a dimension whose layout character is not spatial? -/
def hasNonSpatialNonzero (layout : List Char) (pw : List (List Int)) : Bool :=
  (layout.zip pw).any (fun p => !(isSpatialDim p.1) && p.2.any (fun v => v != 0))

/-- Column j of the spatial rows of pad_width, in layout order; none
models the out-of-bounds Array access abort when a spatial row is
shorter than row zero. -/
def spatialColumn (layout : List Char) (pw : List (List Int)) (j : Nat) : Option (List Int) :=
  ((layout.zip pw).filter (fun p => isSpatialDim p.1)).mapM (fun p => p.2.get? j)

/-- The second (nested) loop of SimplifyConvPad::GetAttrs: for each
column index j of pad_width row zero, the spatial entries of column j,
concatenated over j. -/
def extractSpatial (layout : List Char) (pw : List (List Int)) : Option (List Int) :=
  ((List.range ((pw.headD []).length)).mapM (fun j => spatialColumn layout pw j)).map List.flatten

/-- Result of SimplifyConvPad::GetAttrs: checkFail models an ICHECK
abort; undef models the undefined Attrs() that makes the callback
decline; defined carries the fused attributes. -/
inductive AttrsResult where
  | checkFail : AttrsResult
  | undef : AttrsResult
  | defined : ConvAttrs → AttrsResult
deriving DecidableEq, Repr

/-- SimplifyConvPad::GetAttrs, translated clause by clause: the layout
versus pad_width extent ICHECK, the non-spatial zero check (returning
the undefined Attrs when violated), then extraction of the spatial pad
amounts and MakeConvAttrs.  Indexing pad_width row zero of an empty
pad_width aborts in the source, hence the isEmpty guard. -/
def GetAttrs (param : PadAttrs) (attrs : ConvAttrs) : AttrsResult :=
  if attrs.data_layout.data.length ≠ param.pad_width.length then .checkFail
  else if hasNonSpatialNonzero attrs.data_layout.data param.pad_width then .undef
  else if param.pad_width.isEmpty then .checkFail
  else
    match extractSpatial attrs.data_layout.data param.pad_width with
    | none => .checkFail
    | some padding =>
        match MakeConvAttrs attrs padding with
        | none => .checkFail
        | some a => .defined a

/-- The operator name of each convolution kind. -/
def convOpName : ConvKind → String
  | .conv1d => "nn.conv1d"
  | .conv2d => "nn.conv2d"
  | .conv3d => "nn.conv3d"

/-- Which branch of the conv1d / conv2d / conv3d alternation an
operator name matches (tried left to right, as alternation is). -/
def convKindOf (op : String) : Option ConvKind :=
  if op = "nn.conv1d" then some .conv1d
  else if op = "nn.conv2d" then some .conv2d
  else if op = "nn.conv3d" then some .conv3d
  else none

/-- SimplifyConvPad::callback after a successful pattern match: k is
the matched convolution branch, x the pad input, w the weight, and the
two attribute bags come from the matched pad and convolution calls.
A pad whose mode is not "constant" or whose value is non-zero returns
the unchanged post node; an undefined GetAttrs result also returns
post; attribute bags of the wrong type fail the source ICHECKs (none).
A fired rewrite rebuilds the convolution directly over x and w with
the fused attributes; the fresh call carries no checked type. -/
def simplifyConvPadCallback (k : ConvKind) (x w : RExpr)
    (padBag convBag : RelayAttrs) (post : RExpr) : Option RExpr :=
  match padBag with
  | .padA param =>
      if param.pad_mode = "constant" ∧ param.pad_value = 0 then
        match convBag with
        | .convA k2 a =>
            if k2 = k then
              match GetAttrs param a with
              | .checkFail => none
              | .undef => some post
              | .defined newAttrs =>
                  some (.call (convOpName k) [x, w] (.convA k newAttrs) none)
            else none
        | _ => none
      else some post
  | _ => none

/-- The SimplifyConvPad rule as one step: match the pattern
(conv1d or conv2d or conv3d)(nn.pad(x), w) against the post node and,
on success, run the callback.  The outer none means the pattern did
not match; some r carries the callback result (itself none on an
ICHECK abort). -/
def simplifyConvPadStep (_pre post : RExpr) : Option (Option RExpr) :=
  match post with
  | .call op [.call "nn.pad" [x] pBag _, w] cBag _ =>
      match convKindOf op with
      | some k => some (simplifyConvPadCallback k x w pBag cBag post)
      | none => none
  | _ => none

/-- The reshape or contrib_reverse_reshape alternation of
SimplifyReshape. -/
def isReshapeOp (op : String) : Bool :=
  op == "reshape" || op == "contrib_reverse_reshape"

/-- The loop of SimplifyReshape::callback: the shape as a list of
integers when every dimension is an IntImmNode, otherwise none. -/
def constShape : List PrimDim → Option (List Int)
  | [] => some []
  | .imm n :: rest => (constShape rest).map (fun l => n :: l)
  | .dyn _ :: _ => none

/-- The integer value of a constant dimension (zero on a non-constant
dimension, which never occurs where this is used). -/
def immVal : PrimDim → Int
  | .imm n => n
  | .dyn _ => 0

/-- Modelled from the spec: MakeReshape (declared in
src/relay/op/tensor/transform.h, implemented outside this repository
under src) builds a single reshape call of its operand to the given
static shape. -/
def MakeReshape (x : RExpr) (newshape : List Int) : RExpr :=
  .call "reshape" [x] (.reshapeA newshape) none

/-- SimplifyReshape::callback: reads the checked type of the pre node
(an unset type fails the checked_type ICHECK: none); when every
dimension is constant it returns MakeReshape of the innermost operand
x to that shape, otherwise the unchanged post node. -/
def simplifyReshapeCallback (pre post x : RExpr) : Option RExpr :=
  match checkedTy pre with
  | none => none
  | some t =>
      match constShape t.shape with
      | some newshape => some (MakeReshape x newshape)
      | none => some post

/-- The SimplifyReshape rule as one step: match
(reshape or reverse reshape)((reshape or reverse reshape)(x)) against
the post node and, on success, run the callback. -/
def simplifyReshapeStep (pre post : RExpr) : Option (Option RExpr) :=
  match post with
  | .call op1 [.call op2 [x] _ _] _ _ =>
      if isReshapeOp op1 && isReshapeOp op2 then
        some (simplifyReshapeCallback pre post x)
      else none
  | _ => none

/-- Which of the full, ones and zeros alternation branches matched,
recorded exactly as the callback recovers it through
node_map.count on the branch patterns. -/
inductive FullKind where
  | fullK | onesK | zerosK
deriving DecidableEq, Repr

/-- Modelled from the spec: the external op catalog assigns each
operator a TOpPattern attribute; the broadcasting binary operators
(the add, subtract, multiply and divide ops of the combinator sugar)
carry kBroadcast, which the HasAttr guard of the FullElementwise
pattern requires of the matched operator. -/
def isBroadcastOp (op : String) : Bool :=
  op == "add" || op == "subtract" || op == "multiply" || op == "divide"

/-- Whether a node is a ConstantNode, as the IsConstant sub-pattern
requires of the bound fill value. -/
def isConstNode : RExpr → Bool
  | .constE _ _ _ _ => true
  | _ => false

/-- Modelled from the spec: IsConstScalar (from pattern_utils.h,
outside this repository under src) holds of a constant whose tensor
data has rank zero, that is a true scalar constant. -/
def IsConstScalar : RExpr → Bool
  | .constE shape _ _ _ => shape.isEmpty
  | _ => false

/-- Modelled from the spec: MakeConstantScalar (from pattern_utils.h,
outside this repository under src) builds a fresh rank-zero constant
of the given dtype and value. -/
def MakeConstantScalar (dtype : String) (v : Int) : RExpr :=
  .constE [] dtype v none

/-- Matching of the full, ones and zeros family patterns of
FullElementwise against one operand: full and full_like require their
fill-value argument to be a ConstantNode (the IsConstant sub-pattern)
and bind it; ones and zeros take no arguments; the like forms take the
shape-providing wildcard.  Branches are tried left to right; the
operator names are disjoint. -/
def matchFullFamily : RExpr → Option (FullKind × Option RExpr)
  | .call "full" [v] _ _ => if isConstNode v then some (.fullK, some v) else none
  | .call "full_like" [_, v] _ _ => if isConstNode v then some (.fullK, some v) else none
  | .call "ones" [] _ _ => some (.onesK, none)
  | .call "ones_like" [_] _ _ => some (.onesK, none)
  | .call "zeros" [] _ _ => some (.zerosK, none)
  | .call "zeros_like" [_] _ _ => some (.zerosK, none)
  | _ => none

/-- FullElementwise::callback, translated line by line.  pre must be a
call with a tensor checked type (two ICHECKs).  is_left compares the
second post argument against the bound x.  The x type is read from the
corresponding pre argument (an out-of-range argument index aborts).
When the x type structurally equals the whole pre type, the rule
fires: the full branch reuses the bound constant after the
IsConstScalar ICHECK (a non-scalar aborts), the ones and zeros
branches build a fresh scalar of the pre dtype; the rebuilt call keeps
the pre operator, attributes and operand positions and carries no
checked type.  Otherwise the unchanged post node is returned. -/
def fullElementwiseCallback (pre post : RExpr) (kind : FullKind)
    (valueB : Option RExpr) (x : RExpr) : Option RExpr :=
  match pre with
  | .call preOp preArgs preA preTyOpt =>
      match preTyOpt with
      | none => none
      | some preTy =>
          match post with
          | .call _ postArgs _ _ =>
              match postArgs.get? 1 with
              | none => none
              | some a1 =>
                  let is_left := RExpr.beq a1 x
                  match (if is_left then preArgs.get? 1 else preArgs.get? 0) with
                  | none => none
                  | some xa =>
                      if checkedTy xa = some preTy then
                        match kind with
                        | .fullK =>
                            match valueB with
                            | none => none
                            | some v =>
                                if IsConstScalar v then
                                  some (if is_left then
                                          .call preOp [v, x] preA none
                                        else
                                          .call preOp [x, v] preA none)
                                else none
                        | .onesK =>
                            some (if is_left then
                                    .call preOp [MakeConstantScalar preTy.dtype 1, x] preA none
                                  else
                                    .call preOp [x, MakeConstantScalar preTy.dtype 1] preA none)
                        | .zerosK =>
                            some (if is_left then
                                    .call preOp [MakeConstantScalar preTy.dtype 0, x] preA none
                                  else
                                    .call preOp [x, MakeConstantScalar preTy.dtype 0] preA none)
                      else some post
          | _ => none
  | _ => none

/-- The FullElementwise rule as one step: the pattern is a two-argument
call whose operator carries the broadcast attribute and one of whose
operands matches the full family, the left operand tried first. -/
def fullElementwiseStep (pre post : RExpr) : Option (Option RExpr) :=
  match post with
  | .call op [a, b] _ _ =>
      if isBroadcastOp op then
        match matchFullFamily a with
        | some kv => some (fullElementwiseCallback pre post kv.1 kv.2 b)
        | none =>
            match matchFullFamily b with
            | some kv => some (fullElementwiseCallback pre post kv.1 kv.2 a)
            | none => none
      else none
  | _ => none

/-- One rule application at a node: a pattern that does not match
leaves the candidate unchanged; a matched rule's callback result
replaces it (none propagating an abort). -/
def applyRule (step : RExpr → RExpr → Option (Option RExpr))
    (pre cand : RExpr) : Option RExpr :=
  match step pre cand with
  | none => some cand
  | some r => r

/-- Modelled from the spec: the per-node part of the rewrite driver
(RewritePatterns of the dataflow matcher, outside this repository
under src): every registered rule is tried in registry order —
SimplifyReshape, FullElementwise, SimplifyConvPad, the order the
ExprSimplifier constructor registers them — and each callback output
becomes the candidate seen by the remaining rules at the same node. -/
def rewriteNode (pre post : RExpr) : Option RExpr :=
  match applyRule simplifyReshapeStep pre post with
  | none => none
  | some c1 =>
      match applyRule fullElementwiseStep pre c1 with
      | none => none
      | some c2 => applyRule simplifyConvPadStep pre c2

mutual
/-- Modelled from the spec: the rewrite driver traversal (outside this
repository under src): one bottom-up pass, children rewritten before
their parent, the rules applied at every node; the original node is
kept as pre for the callbacks while the candidate carries the
rewritten children. -/
def SimplifyExpr : RExpr → Option RExpr
  | .var n t => rewriteNode (.var n t) (.var n t)
  | .constE s d v t => rewriteNode (.constE s d v t) (.constE s d v t)
  | .call op args attrs t =>
      match simplifyArgs args with
      | none => none
      | some args2 => rewriteNode (.call op args attrs t) (.call op args2 attrs t)
def simplifyArgs : List RExpr → Option (List RExpr)
  | [] => some []
  | e :: es =>
      match SimplifyExpr e, simplifyArgs es with
      | some a, some b => some (a :: b)
      | _, _ => none
end

/-- A reference to a registered operator, as Op.Get returns it. -/
structure OpRef where
  name : String
deriving DecidableEq, Repr

/-- The pattern language of the dataflow pattern combinators: wildcard,
variable, constant, expression reference, call, tuple, tuple
projection, attribute guard and alternation. -/
inductive DFPattern where
  | wildcard : DFPattern
  | varP : String → DFPattern
  | constantP : DFPattern
  | exprRef : OpRef → DFPattern
  | callP : DFPattern → List DFPattern → DFPattern
  | tupleP : List DFPattern → DFPattern
  | tupleGetItemP : DFPattern → Int → DFPattern
  | attrP : DFPattern → List (String × Int) → DFPattern
  | altP : DFPattern → DFPattern → DFPattern

/-- The IsOp helper: an expression-reference pattern to the named
operator. -/
def IsOp (name : String) : DFPattern := .exprRef { name := name }

/-- Applying a pattern to arguments builds a call pattern with that
operator pattern and those argument patterns, in order. -/
def DFPattern.app (p : DFPattern) (args : List DFPattern) : DFPattern :=
  .callP p args

/-- Modelled from the spec: the combinator sugar for add (operator
overloading in the dataflow pattern sources, outside this repository
under src): Call of ExprRef to the add op over the two operands. -/
def DFPattern.addS (a b : DFPattern) : DFPattern := (IsOp "add").app [a, b]

/-- Modelled from the spec: the combinator sugar for subtract. -/
def DFPattern.subS (a b : DFPattern) : DFPattern := (IsOp "subtract").app [a, b]

/-- Modelled from the spec: the combinator sugar for multiply. -/
def DFPattern.mulS (a b : DFPattern) : DFPattern := (IsOp "multiply").app [a, b]

/-- Modelled from the spec: the combinator sugar for divide. -/
def DFPattern.divS (a b : DFPattern) : DFPattern := (IsOp "divide").app [a, b]

/-- Modelled from the spec: the alternation sugar: left and right in
that order. -/
def DFPattern.orS (a b : DFPattern) : DFPattern := .altP a b

/-- The declaration data of a function-level pass as
CreateFunctionPass receives it: optimization level, pass name and the
names of the required precondition passes. -/
structure PassInfoR where
  opt_level : Int
  name : String
  required : List String
deriving DecidableEq, Repr

/-- CreateFunctionPass, restricted to the declaration data the claims
concern. -/
def CreateFunctionPassInfo (opt_level : Int) (name : String)
    (required : List String) : PassInfoR :=
  { opt_level := opt_level, name := name, required := required }

/-- transform::SimplifyExpr: the pass as registered, opt level 0, name
SimplifyExpr, required passes InferType. -/
def SimplifyExprPass : PassInfoR :=
  CreateFunctionPassInfo 0 "SimplifyExpr" ["InferType"]

/-- The three rewrite rules, as registry entries. -/
inductive RuleKind where
  | simplifyReshapeRule | fullElementwiseRule | simplifyConvPadRule
deriving DecidableEq, Repr

/-- A registered DFPatternCallback as ExprSimplifier::CreateCallback
builds it: the wrapped rule and the require-type flag passed to the
DFPatternCallback constructor. -/
structure PatternCallbackR where
  rule : RuleKind
  require_type : Bool
deriving DecidableEq, Repr

/-- ExprSimplifier::CreateCallback: appends one callback wrapping the
given rule, with the require-type flag set to true. -/
def CreateCallback (callbacks : List PatternCallbackR) (r : RuleKind) :
    List PatternCallbackR :=
  callbacks ++ [{ rule := r, require_type := true }]

/-- The callback registry the ExprSimplifier constructor builds: three
CreateCallback invocations in the fixed order SimplifyReshape,
FullElementwise, SimplifyConvPad, starting from the empty registry.
The constructor takes no configuration, so every invocation of
Simplify uses this same registry. -/
def ExprSimplifierCallbacks : List PatternCallbackR :=
  CreateCallback
    (CreateCallback
      (CreateCallback [] .simplifyReshapeRule)
      .fullElementwiseRule)
    .simplifyConvPadRule

/-- The value the FullElementwise rule substitutes for the matched
full, ones or zeros sub-expression: the bound constant itself for the
full branch, a fresh scalar of the result dtype for ones and zeros. -/
def feValue (k : FullKind) (v : Option RExpr) (dtype : String) : RExpr :=
  match k with
  | .fullK => v.getD (.var "" none)
  | .onesK => MakeConstantScalar dtype 1
  | .zerosK => MakeConstantScalar dtype 0

/-- Concrete input: the variable x. -/
def xV : RExpr := .var "x" none

/-- Concrete input: the weight variable w. -/
def wV : RExpr := .var "w" none

/-- Concrete pad attributes: constant mode, zero value, pad_width
adding two on each side of the two spatial dimensions of NCHW. -/
def padParamSpatial : PadAttrs :=
  { pad_width := [[0, 0], [0, 0], [2, 2], [2, 2]]
  , pad_mode := "constant", pad_value := 0 }

/-- Concrete conv2d attributes with the padding attribute written as
the literal two-element list [1, 1]. -/
def conv2dAttrsPad2 : ConvAttrs :=
  { strides := [1, 1], padding := [1, 1], dilation := [1, 1], groups := 1
  , channels := none, kernel_size := some [3, 3]
  , data_layout := "NCHW", kernel_layout := "OIHW"
  , out_layout := "", out_dtype := "" }

/-- The same conv2d attributes with the padding in the expanded
four-element per-edge form [1, 1, 1, 1]. -/
def conv2dAttrsPad4 : ConvAttrs := { conv2dAttrsPad2 with padding := [1, 1, 1, 1] }

/-- The fused attributes: padding [3, 3, 3, 3], everything else as in
conv2dAttrsPad4. -/
def convFusedAttrs : ConvAttrs := { conv2dAttrsPad4 with padding := [3, 3, 3, 3] }

/-- The nn.pad call over x with the spatial pad attributes. -/
def padCallSpatial : RExpr := .call "nn.pad" [xV] (.padA padParamSpatial) none

/-- conv2d over the pad, with the literal two-element padding [1, 1]. -/
def convOverPadLit : RExpr :=
  .call "nn.conv2d" [padCallSpatial, wV] (.convA .conv2d conv2dAttrsPad2) none

/-- conv2d over the pad, with the expanded padding [1, 1, 1, 1]. -/
def convOverPadExp : RExpr :=
  .call "nn.conv2d" [padCallSpatial, wV] (.convA .conv2d conv2dAttrsPad4) none

/-- The fused conv2d directly over x and w with padding [3, 3, 3, 3]. -/
def convFused : RExpr :=
  .call "nn.conv2d" [xV, wV] (.convA .conv2d convFusedAttrs) none

/-- Pad attributes that pad the channel dimension of NCHW: non-zero
entries on the non-spatial character C. -/
def padParamChannel : PadAttrs :=
  { pad_width := [[0, 0], [1, 1], [0, 0], [0, 0]]
  , pad_mode := "constant", pad_value := 0 }

/-- The nn.pad call over x padding the channel dimension. -/
def padCallChannel : RExpr := .call "nn.pad" [xV] (.padA padParamChannel) none

/-- conv2d over the channel-padding pad. -/
def convOverPadChannel : RExpr :=
  .call "nn.conv2d" [padCallChannel, wV] (.convA .conv2d conv2dAttrsPad4) none

/-- Pad attributes with a non-constant pad mode. -/
def padParamEdge : PadAttrs :=
  { pad_width := [[0, 0], [0, 0], [2, 2], [2, 2]]
  , pad_mode := "edge", pad_value := 0 }

/-- The nn.pad call over x in edge mode. -/
def padCallEdge : RExpr := .call "nn.pad" [xV] (.padA padParamEdge) none

/-- conv2d over the edge-mode pad. -/
def convOverPadEdge : RExpr :=
  .call "nn.conv2d" [padCallEdge, wV] (.convA .conv2d conv2dAttrsPad4) none

/-- The checked type of the inner reshape of the concrete reshape
pair. -/
def reshapeInnerTy : TensorTy :=
  { shape := [.imm 2, .imm 3, .imm 4], dtype := "float32" }

/-- The checked type of the outer reshape: a fully static shape. -/
def reshapeOuterTy : TensorTy := { shape := [.imm 6, .imm 4], dtype := "float32" }

/-- The inner reshape call of the concrete reshape pair. -/
def reshapeInner : RExpr :=
  .call "reshape" [xV] (.reshapeA [2, 3, 4]) (some reshapeInnerTy)

/-- The outer reshape call of the concrete reshape pair. -/
def reshapeOuter : RExpr :=
  .call "reshape" [reshapeInner] (.reshapeA [6, 4]) (some reshapeOuterTy)

/-- A rank-one float32 tensor type of extent two. -/
def f32v2 : TensorTy := { shape := [.imm 2], dtype := "float32" }

/-- A variable y of type float32 extent two. -/
def yV : RExpr := .var "y" (some f32v2)

/-- A scalar int32 constant. -/
def cInt32 : RExpr := .constE [] "int32" 5 none

/-- A full call whose fill value is the int32 scalar but whose checked
output type is float32. -/
def fullInt32 : RExpr := .call "full" [cInt32] .noAttrs (some f32v2)

/-- add of the int32-filled full and y, checked type float32 extent
two. -/
def addFullPre : RExpr := .call "add" [fullInt32, yV] .noAttrs (some f32v2)

/-- A shape-providing variable d of type float32 extent two. -/
def dV : RExpr := .var "d" (some f32v2)

/-- zeros_like of d. -/
def zerosLikeD : RExpr := .call "zeros_like" [dV] .noAttrs (some f32v2)

/-- add of zeros_like d and y, checked type float32 extent two. -/
def addZerosPre : RExpr := .call "add" [zerosLikeD, yV] .noAttrs (some f32v2)

/-- A rank-one (non-scalar) float32 constant. -/
def cVecF32 : RExpr := .constE [2] "float32" 0 none

/-- A full call whose bound fill value is the non-scalar constant. -/
def fullVec : RExpr := .call "full" [cVecF32] .noAttrs (some f32v2)

/-- add of the non-scalar-filled full and y. -/
def addFullVecPre : RExpr := .call "add" [fullVec, yV] .noAttrs (some f32v2)

theorem convKindOf_convOpName (k : ConvKind) : convKindOf (convOpName k) = some k := by
  cases k <;> rfl

/-- C8: the combinator sugar for the binary operators builds a call
pattern whose operator is an expression-reference pattern to the
corresponding op (add, subtract, multiply, divide) and whose arguments
are the two operands in order, and the alternation sugar builds an
alternation with left and right in order. -/
theorem dfpattern_sugar_spec (a b : DFPattern) :
    DFPattern.addS a b = .callP (.exprRef { name := "add" }) [a, b]
  ∧ DFPattern.subS a b = .callP (.exprRef { name := "subtract" }) [a, b]
  ∧ DFPattern.mulS a b = .callP (.exprRef { name := "multiply" }) [a, b]
  ∧ DFPattern.divS a b = .callP (.exprRef { name := "divide" }) [a, b]
  ∧ DFPattern.orS a b = .altP a b :=
  ⟨rfl, rfl, rfl, rfl, rfl⟩

/-- C9: the simplifier is exposed as the function-level pass named
SimplifyExpr whose only declared required precondition pass is
InferType. -/
theorem simplifyExprPass_decl_spec :
    SimplifyExprPass.name = "SimplifyExpr"
  ∧ SimplifyExprPass.required = ["InferType"] :=
  ⟨rfl, rfl⟩

/-- C10: the registry the ExprSimplifier constructor builds holds
exactly three callbacks, in the fixed order SimplifyReshape,
FullElementwise, SimplifyConvPad, each with the require-type flag
true; the constructor takes no configuration, so the registry is the
same on every invocation. -/
theorem exprSimplifier_registry_spec :
    ExprSimplifierCallbacks.length = 3
  ∧ ExprSimplifierCallbacks.map PatternCallbackR.rule
      = [RuleKind.simplifyReshapeRule, RuleKind.fullElementwiseRule,
         RuleKind.simplifyConvPadRule]
  ∧ ExprSimplifierCallbacks.all (fun c => c.require_type) = true :=
  ⟨rfl, rfl, rfl⟩

/-- C3: the pad-into-convolution rule rewrites only under a
constant-mode, zero-value pad: for any other pad mode or any non-zero
pad value, the callback returns the unchanged post node rather than
raising an error. -/
theorem convPad_requires_constant_zero
    (k : ConvKind) (pre x w : RExpr) (param : PadAttrs) (cBag : RelayAttrs)
    (pTy cTy : Option TensorTy)
    (h : ¬ (param.pad_mode = "constant" ∧ param.pad_value = 0)) :
    simplifyConvPadStep pre
        (.call (convOpName k) [.call "nn.pad" [x] (.padA param) pTy, w] cBag cTy)
      = some (some
          (.call (convOpName k) [.call "nn.pad" [x] (.padA param) pTy, w] cBag cTy)) := by
  cases k <;>
    simp [simplifyConvPadStep, convKindOf, convOpName, simplifyConvPadCallback, h]

/-- C3 witness: a conv2d over an edge-mode pad is returned unchanged. -/
theorem convPad_requires_constant_zero_witness :
    simplifyConvPadStep xV convOverPadEdge = some (some convOverPadEdge) :=
  convPad_requires_constant_zero .conv2d xV xV wV padParamEdge
    (.convA .conv2d conv2dAttrsPad4) none none (by decide)

/-- C2: a matched convolution-over-pad whose pad_width has a non-zero
entry on a dimension whose data-layout character is not spatial is
returned unchanged by the callback: no fusion occurs.  The layout and
pad_width extents must agree, as the source asserts of every matched
well-typed graph. -/
theorem convPad_nonspatial_blocks
    (k : ConvKind) (pre x w : RExpr) (param : PadAttrs) (a : ConvAttrs)
    (pTy cTy : Option TensorTy)
    (hlen : a.data_layout.data.length = param.pad_width.length)
    (hns : hasNonSpatialNonzero a.data_layout.data param.pad_width = true) :
    simplifyConvPadStep pre
        (.call (convOpName k) [.call "nn.pad" [x] (.padA param) pTy, w] (.convA k a) cTy)
      = some (some
          (.call (convOpName k) [.call "nn.pad" [x] (.padA param) pTy, w] (.convA k a) cTy)) := by
  by_cases hc : param.pad_mode = "constant" ∧ param.pad_value = 0
  · cases k <;>
      simp [simplifyConvPadStep, convKindOf, convOpName, simplifyConvPadCallback,
            hc, GetAttrs, hlen, hns]
  · cases k <;>
      simp [simplifyConvPadStep, convKindOf, convOpName, simplifyConvPadCallback, hc]

/-- C2 witness: a pad with non-zero amounts on the channel dimension
of NCHW before a conv2d is returned unchanged. -/
theorem convPad_nonspatial_blocks_witness :
    simplifyConvPadStep xV convOverPadChannel = some (some convOverPadChannel) :=
  convPad_nonspatial_blocks .conv2d xV xV wV padParamChannel conv2dAttrsPad4
    none none (by decide) (by decide)

theorem MakeConvAttrs_some (a a2 : ConvAttrs) (pads : List Int)
    (h : MakeConvAttrs a pads = some a2) :
    pads.length = a.padding.length
    ∧ a2 = { a with padding := List.zipWith (fun p q => p + q) pads a.padding } := by
  unfold MakeConvAttrs at h
  split at h
  · rename_i hlen
    simp only [Option.some.injEq] at h
    exact ⟨hlen, h.symm⟩
  · simp at h

theorem GetAttrs_defined (param : PadAttrs) (a newA : ConvAttrs)
    (hga : GetAttrs param a = .defined newA) :
    ∃ pads, extractSpatial a.data_layout.data param.pad_width = some pads
      ∧ pads.length = a.padding.length
      ∧ newA = { a with padding := List.zipWith (fun p q => p + q) pads a.padding } := by
  unfold GetAttrs at hga
  split at hga
  · simp at hga
  · split at hga
    · simp at hga
    · split at hga
      · simp at hga
      · split at hga
        · simp at hga
        · rename_i pads hex
          refine ⟨pads, hex, ?_⟩
          split at hga
          · simp at hga
          · rename_i a2 hmk
            obtain ⟨hlen, hrec⟩ := MakeConvAttrs_some a a2 pads hmk
            injection hga with h2
            subst h2
            exact ⟨hlen, hrec⟩

/-- C7: when the pad-into-convolution fusion fires, every attribute of
the new convolution other than padding equals the corresponding
attribute of the original convolution, and the new padding is,
element-wise, the sum of the extracted spatial pad amounts with the
original convolution padding. -/
theorem convPad_fusion_attrs
    (k : ConvKind) (pre x w : RExpr) (param : PadAttrs) (a newA : ConvAttrs)
    (pTy cTy : Option TensorTy)
    (hmode : param.pad_mode = "constant") (hval : param.pad_value = 0)
    (hga : GetAttrs param a = .defined newA) :
    simplifyConvPadStep pre
        (.call (convOpName k) [.call "nn.pad" [x] (.padA param) pTy, w] (.convA k a) cTy)
      = some (some (.call (convOpName k) [x, w] (.convA k newA) none))
  ∧ newA.strides = a.strides
  ∧ newA.dilation = a.dilation
  ∧ newA.groups = a.groups
  ∧ newA.channels = a.channels
  ∧ newA.kernel_size = a.kernel_size
  ∧ newA.data_layout = a.data_layout
  ∧ newA.kernel_layout = a.kernel_layout
  ∧ newA.out_layout = a.out_layout
  ∧ newA.out_dtype = a.out_dtype
  ∧ ∃ pads, extractSpatial a.data_layout.data param.pad_width = some pads
      ∧ pads.length = a.padding.length
      ∧ newA.padding = List.zipWith (fun p q => p + q) pads a.padding := by
  obtain ⟨pads, hex, hlen, hEq⟩ := GetAttrs_defined param a newA hga
  refine ⟨?_, ?_⟩
  · cases k <;>
      simp [simplifyConvPadStep, convKindOf, convOpName, simplifyConvPadCallback,
            hmode, hval, hga]
  · subst hEq
    exact ⟨rfl, rfl, rfl, rfl, rfl, rfl, rfl, rfl, rfl, pads, hex, hlen, rfl⟩

/-- C7 witness: at the concrete NCHW input the fusion fires and
produces the conv2d with padding three on every edge and the other
attributes untouched. -/
theorem convPad_fusion_attrs_witness :
    simplifyConvPadStep xV convOverPadExp = some (some convFused) :=
  (convPad_fusion_attrs .conv2d xV xV wV padParamSpatial conv2dAttrsPad4
    convFusedAttrs none none rfl rfl (by decide)).1

/-- C1 counterexample: on the conv2d whose stored padding attribute is
literally the two-element [1, 1], preceded by a constant-mode zero
pad of amount [[0,0],[0,0],[2,2],[2,2]] on NCHW, the pass aborts (the
MakeConvAttrs extent ICHECK fails: four extracted spatial pad amounts
against two padding entries), so Simplify does not rewrite the pair
to any convolution, let alone one with combined padding [3, 3]. -/
theorem convPad_literal_pad11_cex : SimplifyExpr convOverPadLit = none := by decide

/-- C1 (amended): with the conv2d padding attribute stored in its
expanded per-edge form [1, 1, 1, 1] (what symmetric padding [1, 1]
denotes), Simplify rewrites the conv2d-over-pad pair to a single
conv2d call directly over the pad input with combined padding
[3, 3, 3, 3], and no pad node remains in the output. -/
theorem convPad_fuse_end_to_end :
    SimplifyExpr convOverPadExp = some convFused
  ∧ containsOp "nn.pad" convFused = false :=
  ⟨by decide, by decide⟩

theorem constShape_all_imm :
    ∀ (l : List PrimDim), (∀ d ∈ l, ∃ n, d = PrimDim.imm n) →
      constShape l = some (l.map immVal)
  | [], _ => rfl
  | d :: rest, h => by
      obtain ⟨n, hn⟩ := h d (by simp)
      subst hn
      have ih := constShape_all_imm rest (fun d2 hd2 => h d2 (by simp [hd2]))
      simp [constShape, ih, immVal]

theorem constShape_has_dyn :
    ∀ (l : List PrimDim), (∃ d ∈ l, ∀ n, d ≠ PrimDim.imm n) →
      constShape l = none
  | [], h => by simp at h
  | d :: rest, h => by
      rcases h with ⟨d2, hd2, hnd⟩
      rcases List.mem_cons.mp hd2 with h1 | h2
      · subst h1
        cases d2 with
        | imm n => exact absurd rfl (hnd n)
        | dyn s => rfl
      · cases d with
        | imm n => simp [constShape, constShape_has_dyn rest ⟨d2, h2, hnd⟩]
        | dyn s => rfl

/-- C4: on a matched pair of nested reshape-or-reverse-reshape calls,
if every dimension of the outer (pre) call checked type is a
compile-time integer constant the callback returns a single reshape of
the innermost operand to that shape; if any dimension is not constant
it returns the unchanged post node. -/
theorem simplifyReshape_callback_spec
    (op1 op2 : String) (h1 : isReshapeOp op1 = true) (h2 : isReshapeOp op2 = true)
    (pre x : RExpr) (iA oA : RelayAttrs) (iTy oTy : Option TensorTy)
    (t : TensorTy) (hpre : checkedTy pre = some t) :
    ((∀ d ∈ t.shape, ∃ n, d = PrimDim.imm n) →
      simplifyReshapeStep pre (.call op1 [.call op2 [x] iA iTy] oA oTy)
        = some (some (MakeReshape x (t.shape.map immVal))))
  ∧ ((∃ d ∈ t.shape, ∀ n, d ≠ PrimDim.imm n) →
      simplifyReshapeStep pre (.call op1 [.call op2 [x] iA iTy] oA oTy)
        = some (some (.call op1 [.call op2 [x] iA iTy] oA oTy))) := by
  constructor
  · intro hall
    simp [simplifyReshapeStep, h1, h2, simplifyReshapeCallback, hpre,
          constShape_all_imm t.shape hall]
  · intro hdyn
    simp [simplifyReshapeStep, h1, h2, simplifyReshapeCallback, hpre,
          constShape_has_dyn t.shape hdyn]

/-- C4 witness: the concrete nested reshape pair with static outer
shape [6, 4] collapses to one reshape of x to [6, 4]. -/
theorem simplifyReshape_callback_spec_witness :
    simplifyReshapeStep reshapeOuter reshapeOuter
      = some (some (MakeReshape xV [6, 4])) := by
  have h := simplifyReshape_callback_spec "reshape" "reshape" rfl rfl
      reshapeOuter xV (.reshapeA [2, 3, 4]) (.reshapeA [6, 4])
      (some reshapeInnerTy) (some reshapeOuterTy) reshapeOuterTy rfl
  exact h.1 (by intro d hd; fin_cases hd <;> exact ⟨_, rfl⟩)

theorem RExpr.beq_false_of_ne (a b : RExpr) (h : a ≠ b) : RExpr.beq a b = false := by
  cases hbe : RExpr.beq a b with
  | false => rfl
  | true => exact absurd (RExpr.eq_of_beq a b hbe) h

theorem matchFullFamily_fullK (e : RExpr) (v : Option RExpr)
    (h : matchFullFamily e = some (FullKind.fullK, v)) :
    ∃ vv, v = some vv ∧ isConstNode vv = true := by
  unfold matchFullFamily at h
  split at h
  · rename_i v0 a0 t0
    split at h
    · rename_i hc
      simp only [Option.some.injEq, Prod.mk.injEq] at h
      exact ⟨v0, h.2.symm, hc⟩
    · exact absurd h (by simp)
  · rename_i d0 v0 a0 t0
    split at h
    · rename_i hc
      simp only [Option.some.injEq, Prod.mk.injEq] at h
      exact ⟨v0, h.2.symm, hc⟩
    · exact absurd h (by simp)
  · simp at h
  · simp at h
  · simp at h
  · simp at h
  · simp at h

theorem fullElementwiseCallback_left
    (preOp : String) (p0 p1 : RExpr) (preA : RelayAttrs) (preTy : TensorTy)
    (postOp : String) (a b : RExpr) (postA : RelayAttrs) (postTy : Option TensorTy)
    (k : FullKind) (v : Option RExpr) :
    fullElementwiseCallback (.call preOp [p0, p1] preA (some preTy))
        (.call postOp [a, b] postA postTy) k v b
      = (if checkedTy p1 = some preTy then
           match k, v with
           | .fullK, none => none
           | .fullK, some vv =>
               if IsConstScalar vv then some (.call preOp [vv, b] preA none) else none
           | .onesK, _ => some (.call preOp [MakeConstantScalar preTy.dtype 1, b] preA none)
           | .zerosK, _ => some (.call preOp [MakeConstantScalar preTy.dtype 0, b] preA none)
         else some (.call postOp [a, b] postA postTy)) := by
  cases k <;> cases v <;>
    simp [fullElementwiseCallback, RExpr.beq_refl]

theorem fullElementwiseCallback_right
    (preOp : String) (p0 p1 : RExpr) (preA : RelayAttrs) (preTy : TensorTy)
    (postOp : String) (a b : RExpr) (postA : RelayAttrs) (postTy : Option TensorTy)
    (k : FullKind) (v : Option RExpr)
    (hbeq : RExpr.beq b a = false) :
    fullElementwiseCallback (.call preOp [p0, p1] preA (some preTy))
        (.call postOp [a, b] postA postTy) k v a
      = (if checkedTy p0 = some preTy then
           match k, v with
           | .fullK, none => none
           | .fullK, some vv =>
               if IsConstScalar vv then some (.call preOp [a, vv] preA none) else none
           | .onesK, _ => some (.call preOp [a, MakeConstantScalar preTy.dtype 1] preA none)
           | .zerosK, _ => some (.call preOp [a, MakeConstantScalar preTy.dtype 0] preA none)
         else some (.call postOp [a, b] postA postTy)) := by
  cases k <;> cases v <;>
    simp [fullElementwiseCallback, hbeq]

/-- C5 (amended): a matched broadcasting binary op with one full, ones
or zeros operand fires only when the checked type of the other (pre)
operand equals the whole expression's checked result type, and then
only the matched identity sub-expression is replaced — by a fresh
scalar constant of value one or zero in the result dtype for the ones
and zeros branches, and by the matched fill-value constant itself
(reused as-is, with its own dtype) for the full branch — keeping the
binary operator, its attributes and the operand positions; when the
type guard fails the unchanged post node is returned. -/
theorem fullElementwise_callback_spec
    (preOp : String) (p0 p1 : RExpr) (preA : RelayAttrs) (preTy : TensorTy)
    (postOp : String) (a b : RExpr) (postA : RelayAttrs) (postTy : Option TensorTy)
    (k : FullKind) (v : Option RExpr) (x : RExpr)
    (hop : isBroadcastOp postOp = true)
    (hbranch : (matchFullFamily a = some (k, v) ∧ x = b)
             ∨ (matchFullFamily a = none ∧ matchFullFamily b = some (k, v) ∧ x = a))
    (hscalar : ∀ vv, v = some vv → IsConstScalar vv = true) :
    ((if (matchFullFamily a).isSome then checkedTy p1 else checkedTy p0) = some preTy →
      fullElementwiseStep (.call preOp [p0, p1] preA (some preTy))
          (.call postOp [a, b] postA postTy)
        = some (some (if (matchFullFamily a).isSome then
                        .call preOp [feValue k v preTy.dtype, x] preA none
                      else
                        .call preOp [x, feValue k v preTy.dtype] preA none)))
  ∧ ((if (matchFullFamily a).isSome then checkedTy p1 else checkedTy p0) ≠ some preTy →
      fullElementwiseStep (.call preOp [p0, p1] preA (some preTy))
          (.call postOp [a, b] postA postTy)
        = some (some (.call postOp [a, b] postA postTy))) := by
  rcases hbranch with ⟨hma, hx⟩ | ⟨hma, hmb, hx⟩
  · subst hx
    have hstep : fullElementwiseStep (.call preOp [p0, p1] preA (some preTy))
        (.call postOp [a, x] postA postTy)
        = some (fullElementwiseCallback (.call preOp [p0, p1] preA (some preTy))
            (.call postOp [a, x] postA postTy) k v x) := by
      simp [fullElementwiseStep, hop, hma]
    rw [fullElementwiseCallback_left] at hstep
    simp only [hma, Option.isSome_some, if_true]
    constructor
    · intro hty
      rw [hstep, if_pos hty]
      cases k with
      | fullK =>
          obtain ⟨vv, hvv, _⟩ := matchFullFamily_fullK a v hma
          subst hvv
          simp [hscalar vv rfl, feValue]
      | onesK => simp [feValue]
      | zerosK => simp [feValue]
    · intro hty
      rw [hstep, if_neg hty]
  · subst hx
    have hne : b ≠ x := by
      intro hEq
      rw [hEq, hma] at hmb
      exact Option.noConfusion hmb
    have hbeq : RExpr.beq b x = false := RExpr.beq_false_of_ne b x hne
    have hstep : fullElementwiseStep (.call preOp [p0, p1] preA (some preTy))
        (.call postOp [x, b] postA postTy)
        = some (fullElementwiseCallback (.call preOp [p0, p1] preA (some preTy))
            (.call postOp [x, b] postA postTy) k v x) := by
      simp [fullElementwiseStep, hop, hma, hmb]
    rw [fullElementwiseCallback_right _ _ _ _ _ _ _ _ _ _ _ _ hbeq] at hstep
    simp only [hma, Option.isSome_none, Bool.false_eq_true, if_false]
    constructor
    · intro hty
      rw [hstep, if_pos hty]
      cases k with
      | fullK =>
          obtain ⟨vv, hvv, _⟩ := matchFullFamily_fullK b v hmb
          subst hvv
          simp [hscalar vv rfl, feValue]
      | onesK => simp [feValue]
      | zerosK => simp [feValue]
    · intro hty
      rw [hstep, if_neg hty]

/-- C5 counterexample: a full whose fill value is an int32 scalar
constant feeding a float32 add with a passing type guard fires by
reusing the int32 constant itself: the replacement is not a scalar
constant of the result dtype float32, refuting the claimed dtype of
the substituted constant. -/
theorem fullElementwise_dtype_cex :
    fullElementwiseStep addFullPre addFullPre
      = some (some (.call "add" [cInt32, yV] .noAttrs none))
  ∧ fullElementwiseStep addFullPre addFullPre
      ≠ some (some (.call "add" [.constE [] "float32" 5 none, yV] .noAttrs none)) :=
  ⟨by decide, by decide⟩

/-- C5 witness: add of zeros_like d and y with matching types rewrites
to add of a fresh float32 scalar zero and y. -/
theorem fullElementwise_callback_spec_witness :
    fullElementwiseStep addZerosPre addZerosPre
      = some (some (.call "add" [MakeConstantScalar "float32" 0, yV] .noAttrs none)) := by
  have h := fullElementwise_callback_spec "add" zerosLikeD yV .noAttrs f32v2 "add"
      zerosLikeD yV .noAttrs (some f32v2) .zerosK none yV rfl
      (Or.inl ⟨rfl, rfl⟩) (fun vv hv => by cases hv)
  exact h.1 rfl

/-- C6 (amended): matched via the full branch with a bound constant
that is not a true scalar, the callback returns the unchanged node
only when the type guard fails (the scalar check is never reached);
when the type guard passes, the IsConstScalar ICHECK fails and the
pass aborts instead of returning the unchanged node. -/
theorem fullElementwise_nonscalar_full_spec
    (preOp : String) (p0 p1 : RExpr) (preA : RelayAttrs) (preTy : TensorTy)
    (postOp : String) (a b : RExpr) (postA : RelayAttrs) (postTy : Option TensorTy)
    (v x : RExpr)
    (hop : isBroadcastOp postOp = true)
    (hbranch : (matchFullFamily a = some (.fullK, some v) ∧ x = b)
             ∨ (matchFullFamily a = none ∧ matchFullFamily b = some (.fullK, some v) ∧ x = a))
    (hns : IsConstScalar v = false) :
    ((if (matchFullFamily a).isSome then checkedTy p1 else checkedTy p0) = some preTy →
      fullElementwiseStep (.call preOp [p0, p1] preA (some preTy))
          (.call postOp [a, b] postA postTy) = some none)
  ∧ ((if (matchFullFamily a).isSome then checkedTy p1 else checkedTy p0) ≠ some preTy →
      fullElementwiseStep (.call preOp [p0, p1] preA (some preTy))
          (.call postOp [a, b] postA postTy)
        = some (some (.call postOp [a, b] postA postTy))) := by
  rcases hbranch with ⟨hma, hx⟩ | ⟨hma, hmb, hx⟩
  · subst hx
    have hstep : fullElementwiseStep (.call preOp [p0, p1] preA (some preTy))
        (.call postOp [a, x] postA postTy)
        = some (fullElementwiseCallback (.call preOp [p0, p1] preA (some preTy))
            (.call postOp [a, x] postA postTy) .fullK (some v) x) := by
      simp [fullElementwiseStep, hop, hma]
    rw [fullElementwiseCallback_left] at hstep
    simp only [hma, Option.isSome_some, if_true]
    constructor
    · intro hty
      rw [hstep, if_pos hty]
      simp [hns]
    · intro hty
      rw [hstep, if_neg hty]
  · subst hx
    have hne : b ≠ x := by
      intro hEq
      rw [hEq, hma] at hmb
      exact Option.noConfusion hmb
    have hbeq : RExpr.beq b x = false := RExpr.beq_false_of_ne b x hne
    have hstep : fullElementwiseStep (.call preOp [p0, p1] preA (some preTy))
        (.call postOp [x, b] postA postTy)
        = some (fullElementwiseCallback (.call preOp [p0, p1] preA (some preTy))
            (.call postOp [x, b] postA postTy) .fullK (some v) x) := by
      simp [fullElementwiseStep, hop, hma, hmb]
    rw [fullElementwiseCallback_right _ _ _ _ _ _ _ _ _ _ _ _ hbeq] at hstep
    simp only [hma, Option.isSome_none, Bool.false_eq_true, if_false]
    constructor
    · intro hty
      rw [hstep, if_pos hty]
      simp [hns]
    · intro hty
      rw [hstep, if_neg hty]

/-- C6 counterexample: with a non-scalar fill constant and a passing
type guard, the callback aborts (ICHECK) instead of returning the
unchanged node, refuting the claim that a failed scalar precondition
yields the unchanged input. -/
theorem fullElementwise_nonscalar_cex :
    fullElementwiseStep addFullVecPre addFullVecPre = some none
  ∧ ¬ (fullElementwiseStep addFullVecPre addFullVecPre
        = some (some addFullVecPre)) :=
  ⟨by decide, by decide⟩

/-- C6 witness: the concrete non-scalar full input with passing type
guard makes the pass abort. -/
theorem fullElementwise_nonscalar_full_spec_witness :
    fullElementwiseStep addFullVecPre addFullVecPre = some none := by
  have h := fullElementwise_nonscalar_full_spec "add" fullVec yV .noAttrs f32v2 "add"
      fullVec yV .noAttrs (some f32v2) cVecF32 yV rfl (Or.inl ⟨rfl, rfl⟩) rfl
  exact h.1 rfl
